import Mathlib

/-!
Verification development for the value-hunter stock pipeline.

The source is a TypeScript service with four files:
  * `fetchStocks.ts` — screener + per-symbol enrichment pipeline
    (`buildQueryParams`, `extractKeyInsights`, `getTargetPrice`,
    `getAnalystSentiment`, `getMetrics`, `getRsi`, `fetchUndervaluedStocks`);
  * `aiScoring.ts` — `scoreAndExplain`, which extracts a JSON array from the
    model's free-text reply and parses it;
  * `notifyDiscord.ts` — `notifyDiscord`, formatting and posting the result;
  * `index.ts` — the HTTP handler and `runBot` (sort, truncate to 3, notify).

Number model: JavaScript numbers are embedded as `ℚ`, holding the exact
mathematical value of the runtime double.  All structural claims are proved
over that exact model.  Where a claim hinges on a specific decimal literal
being representable in binary64 (claim C8), the binary64 rounding of the
literal is made explicit: in the interval [2, 4) doubles are exactly the
integer multiples of 2⁻⁵¹, and `Number.prototype.toFixed` is specified on
the exact mathematical value of the double, which `ℚ` captures.

Network effects: each outbound HTTP fetch of the pipeline is modelled by an
environment (`Env`) mapping a symbol to the fetched result; the screener
response itself is passed to `fetchUndervaluedStocks` as a list of raw
candidate rows.
-/

/-- `Number.prototype.toFixed d` followed by unary `+`, on the exact value:
round to `d` decimal places.  ECMA-262 first takes the absolute value
(emitting a `-` sign separately) and then picks the integer `n` with
`n / 10^d` closest to the value, preferring the larger `n` on a tie, i.e.
round half away from zero. -/
def toFixedRound (d : ℕ) (x : ℚ) : ℚ :=
  if x < 0 then -((⌊(-x) * 10 ^ d + 1 / 2⌋ : ℤ) : ℚ) / 10 ^ d
  else ((⌊x * 10 ^ d + 1 / 2⌋ : ℤ) : ℚ) / 10 ^ d

/-- The `StockInsights` record derived from one raw analyst estimate
(`fetchStocks.ts`).  The source field `sgaToRevenueRatio` is named
`sgaOverRevenue` here. -/
structure StockInsights where
  period : String
  eps : ℚ
  ebitdaMargin : ℚ
  netMargin : ℚ
  sgaOverRevenue : ℚ
  analystCount : ℚ
  summary : String
deriving DecidableEq

/-- One row of the analyst-estimates response (`RawStockData` in the source). -/
structure RawStockData where
  symbol : String
  date : String
  revenueAvg : ℚ
  ebitdaAvg : ℚ
  netIncomeAvg : ℚ
  sgaExpenseAvg : ℚ
  epsAvg : ℚ
  numAnalystsRevenue : ℚ
  numAnalystsEps : ℚ
deriving DecidableEq

/-- Decimal digit string of a natural number, left-padded with zeros to
width `d`. -/
def padZeros (d : ℕ) (n : ℕ) : String :=
  let s := toString n
  String.mk (List.replicate (d - s.length) '0') ++ s

/-- The string produced by `Number.prototype.toFixed d` on the exact value
(for magnitudes below `10²¹`): optional sign, then the integer digits of
the half-away-from-zero rounding of the absolute value, a point, and
exactly `d` fraction digits. -/
def toFixedString (d : ℕ) (x : ℚ) : String :=
  let m := (⌊|x| * 10 ^ d + 1 / 2⌋).toNat
  let sign := if x < 0 then "-" else ""
  if d = 0 then sign ++ toString m
  else sign ++ toString (m / 10 ^ d) ++ "." ++ padZeros d (m % 10 ^ d)

/-- JavaScript string interpolation of a number, on the integral values an
analyst count takes: the decimal integer string.  A non-integral rational
renders as an explicit fraction, a declared stand-in that no input of
interest produces. -/
def jsNumToString (q : ℚ) : String :=
  if q.den = 1 then toString q.num
  else toString q.num ++ "/" ++ toString q.den

/-- The summary template literal of `extractKeyInsights` (`fetchStocks.ts`
lines 69–76): EPS to two decimals, the three percentages to one decimal,
and the interpolated analyst count. -/
def summaryText (epsAvg ebitdaMargin netMargin sga analystCount : ℚ) : String :=
  "EPS: $" ++ toFixedString 2 epsAvg ++ ", EBITDA Margin: " ++
    toFixedString 1 (ebitdaMargin * 100) ++ "%, Net Margin: " ++
    toFixedString 1 (netMargin * 100) ++ "%, SG&A: " ++
    toFixedString 1 (sga * 100) ++ "%, Analysts: " ++ jsNumToString analystCount

/-- `extractKeyInsights` (`fetchStocks.ts` lines 48–78): margins and the
SG&A ratio are each `+(avg / revenueAvg).toFixed(4)`, EPS is
`+epsAvg.toFixed(2)`, the analyst count is
`Math.max(numAnalystsRevenue, numAnalystsEps)`, the period is the row's
date. -/
def extractKeyInsights (data : RawStockData) : StockInsights :=
  let ebitdaMargin := toFixedRound 4 (data.ebitdaAvg / data.revenueAvg)
  let netMargin := toFixedRound 4 (data.netIncomeAvg / data.revenueAvg)
  let sga := toFixedRound 4 (data.sgaExpenseAvg / data.revenueAvg)
  let analystCount := max data.numAnalystsRevenue data.numAnalystsEps
  { period := data.date
    eps := toFixedRound 2 data.epsAvg
    ebitdaMargin := ebitdaMargin
    netMargin := netMargin
    sgaOverRevenue := sga
    analystCount := analystCount
    summary := summaryText data.epsAvg ebitdaMargin netMargin sga analystCount }

/-- The enriched `Stock` record (`fetchStocks.ts`).  `targetPrice` is
`number | null` in the source, hence `Option ℚ`. -/
structure Stock extends StockInsights where
  symbol : String
  companyName : String
  price : ℚ
  pe : ℚ
  pb : ℚ
  targetPrice : Option ℚ
  rsi : ℚ
  debtToEquity : ℚ
deriving DecidableEq

/-- One screener-response row, as consumed by `fetchUndervaluedStocks`:
symbol, company name, price, and the ETF/fund flags used by the first
filter. -/
structure RawCandidate where
  symbol : String
  companyName : String
  price : ℚ
  isEtf : Bool
  isFund : Bool
deriving DecidableEq

/-- Result of `getMetrics`: a partial record.  A field is `none` when the
fetched value is not a number (missing data, failed fetch, or a non-numeric
payload) — the source guards each with `typeof … !== "number"`. -/
structure Metrics where
  pe : Option ℚ
  pb : Option ℚ
  debtToEquity : Option ℚ
deriving DecidableEq

/-- `getRsi` (`fetchStocks.ts` lines 110–112): a stub that always returns
`null` — no RSI data source is wired in. -/
def getRsi (_symbol : String) : Option ℚ :=
  none

/-- The outcome of the three per-symbol HTTP fetchers, per symbol.
`targetPriceOf` models `getTargetPrice` (`null` ↦ `none`; the source
returns the first row's `allTimeAvgPriceTarget` when positive, else null,
and null on any error).  `sentimentOf` models `getAnalystSentiment`
(`false` ↦ `none`).  `metricsOf` models `getMetrics`. -/
structure Env where
  targetPriceOf : String → Option ℚ
  sentimentOf : String → Option StockInsights
  metricsOf : String → Metrics

/-- The record pushed by `fetchUndervaluedStocks` for a passing candidate
(the `enriched.push({...})` literal).  Total function; the `getD` defaults
are never reached on a passing candidate, where every fetched part is
present. -/
def buildStock (env : Env) (c : RawCandidate) : Stock :=
  let ins := (env.sentimentOf c.symbol).getD
    { period := "", eps := 0, ebitdaMargin := 0, netMargin := 0,
      sgaOverRevenue := 0, analystCount := 0, summary := "" }
  let m := env.metricsOf c.symbol
  { toStockInsights := ins
    symbol := c.symbol
    companyName := c.companyName
    price := c.price
    pe := m.pe.getD 0
    pb := m.pb.getD 0
    targetPrice := env.targetPriceOf c.symbol
    rsi := (getRsi c.symbol).getD 50
    debtToEquity := m.debtToEquity.getD 0 }

/-- The per-candidate body of the `for` loop in `fetchUndervaluedStocks`
(lines 203–235): `continue` becomes `none`, a push becomes `some`.
Step 1: `if (!targetPrice || targetPrice / price <= 1.5) continue` — on the
values `getTargetPrice` can produce, `!targetPrice` is true exactly for
`null` (`none`) or `0`.  Step 2: sentiment `false` skips.  Step 3: any of
P/E, P/B, debt-to-equity not a number skips.  Step 4: `rsi ?? 50`. -/
def enrichCandidate (env : Env) (c : RawCandidate) : Option Stock :=
  match env.targetPriceOf c.symbol with
  | none => none
  | some t =>
    if t = 0 ∨ t / c.price ≤ 3 / 2 then none
    else
      match env.sentimentOf c.symbol with
      | none => none
      | some _ =>
        let m := env.metricsOf c.symbol
        match m.pe, m.pb, m.debtToEquity with
        | some _, some _, some _ => some (buildStock env c)
        | _, _, _ => none

/-- `fetchUndervaluedStocks` (`fetchStocks.ts` lines 189–246) after a
successful screener call whose response rows are `data`: first
`data.filter(s => !s.isEtf && !s.isFund)`, then the sequential per-candidate
enrichment loop appending passing records in order. -/
def fetchUndervaluedStocks (env : Env) (data : List RawCandidate) : List Stock :=
  (data.filter fun s => !s.isEtf && !s.isFund).filterMap (enrichCandidate env)

/-- The inclusion condition exactly as the specification words it: not
flagged ETF or fund, the fetched target price exists (non-null), fetched
target over price exceeds 1.5, the sentiment fetch succeeds, and P/E, P/B
and debt-to-equity are all numeric. -/
def specIncluded (env : Env) (c : RawCandidate) : Bool :=
  !c.isEtf && !c.isFund &&
    (match env.targetPriceOf c.symbol with
     | none => false
     | some t => decide (3 / 2 < t / c.price)) &&
    (env.sentimentOf c.symbol).isSome &&
    (env.metricsOf c.symbol).pe.isSome &&
    (env.metricsOf c.symbol).pb.isSome &&
    (env.metricsOf c.symbol).debtToEquity.isSome

/-- A JavaScript number that may be `NaN` (produced by `Number(...)` on an
absent or non-numeric query parameter).  The numeric case carries the exact
value as `ℚ`. -/
inductive JSNum where
  | nan : JSNum
  | num : ℚ → JSNum
deriving DecidableEq

/-- `ScreenerOptions` as an object: a field is `none` when the key is
absent from the object.  Numeric fields may carry `NaN`, which the merge
and the query string propagate as an ordinary value. -/
structure ScreenerOptions where
  marketCapLowerThan : Option JSNum := none
  priceLowerThan : Option JSNum := none
  averageVolumeMoreThan : Option JSNum := none
  exchange : Option String := none
  isActivelyTrading : Option Bool := none
  isEtf : Option Bool := none
  isFund : Option Bool := none
  limit : Option JSNum := none
deriving DecidableEq

/-- The `defaultParams` literal inside `buildQueryParams`
(`fetchStocks.ts` lines 176–180). -/
def defaultParams : ScreenerOptions :=
  { isActivelyTrading := some true
    limit := some (JSNum.num 400)
    exchange := some "NASDAQ" }

/-- Per-key semantics of the object spread `{...d, ...c}`: a key present in
`c` wins, otherwise the key from `d` survives. -/
def overrideWith (d c : Option α) : Option α :=
  match c with
  | some v => some v
  | none => d

/-- The `finalParams` object of `buildQueryParams`
(`fetchStocks.ts` line 182): `{...defaultParams, ...params}`. -/
def finalParams (params : ScreenerOptions) : ScreenerOptions :=
  { marketCapLowerThan := overrideWith defaultParams.marketCapLowerThan params.marketCapLowerThan
    priceLowerThan := overrideWith defaultParams.priceLowerThan params.priceLowerThan
    averageVolumeMoreThan := overrideWith defaultParams.averageVolumeMoreThan params.averageVolumeMoreThan
    exchange := overrideWith defaultParams.exchange params.exchange
    isActivelyTrading := overrideWith defaultParams.isActivelyTrading params.isActivelyTrading
    isEtf := overrideWith defaultParams.isEtf params.isEtf
    isFund := overrideWith defaultParams.isFund params.isFund
    limit := overrideWith defaultParams.limit params.limit }

/-- The query-string values of `req.query` that the `/run` handler reads:
each is `none` when the query parameter is absent from the request. -/
structure HandlerQuery where
  marketCapLowerThan : Option String := none
  priceLowerThan : Option String := none
  averageVolumeMoreThan : Option String := none
  exchange : Option String := none
  isActivelyTrading : Option String := none
  isEtf : Option String := none
  isFund : Option String := none
  limit : Option String := none
deriving DecidableEq

/-- `Number(x)` on a query value: `Number(undefined)` is `NaN`; on a
present string the ECMA string-to-number conversion applies, which the
model takes as a parameter (`parse`) — no claim under verification depends
on it. -/
def jsNumber (parse : String → JSNum) : Option String → JSNum
  | none => JSNum.nan
  | some s => parse s

/-- `String(x)` on a query value: `String(undefined)` is the eight-character
string `"undefined"`. -/
def jsString : Option String → String
  | none => "undefined"
  | some s => s

/-- `x === "true"` on a query value: `false` when the parameter is absent. -/
def jsIsTrueLiteral : Option String → Bool
  | none => false
  | some s => s == "true"

/-- JavaScript `a || b` on a number `a`: returns `a` unless it is falsy
(`NaN` or `0`), in which case `b`. -/
def jsOrNum (a : JSNum) (b : JSNum) : JSNum :=
  match a with
  | JSNum.nan => b
  | JSNum.num q => if q = 0 then b else JSNum.num q

/-- The `params` object literal built by the `/run` handler
(`index.ts` lines 37–46): every screener key is present, with
`Number(...)` for the three numeric filters, `String(exchange)`,
`=== "true"` for the three boolean flags, and `Number(limit) || 400`. -/
def runHandlerParams (parse : String → JSNum) (q : HandlerQuery) : ScreenerOptions :=
  { marketCapLowerThan := some (jsNumber parse q.marketCapLowerThan)
    priceLowerThan := some (jsNumber parse q.priceLowerThan)
    averageVolumeMoreThan := some (jsNumber parse q.averageVolumeMoreThan)
    exchange := some (jsString q.exchange)
    isActivelyTrading := some (jsIsTrueLiteral q.isActivelyTrading)
    isEtf := some (jsIsTrueLiteral q.isEtf)
    isFund := some (jsIsTrueLiteral q.isFund)
    limit := some (jsOrNum (jsNumber parse q.limit) (JSNum.num 400)) }

/-- One scored stock as parsed from the model reply (`aiScoring.ts`). -/
structure ScoredStock where
  symbol : String
  score : ℚ
  explanation : String
deriving DecidableEq

/-- `scored.sort((a, b) => b.score - a.score)` in `runBot`
(`index.ts` line 18): a stable sort by descending score.  JavaScript's
`Array.prototype.sort` is stable and, under the consistent comparator
`b.score - a.score`, produces the unique stable descending reordering —
the same list an insertion sort under `b.score ≤ a.score` produces. -/
def sortByScoreDesc (l : List ScoredStock) : List ScoredStock :=
  l.insertionSort fun a b => b.score ≤ a.score

/-- `runBot`'s post-processing of the scored list (`index.ts` line 18):
`scored.sort((a, b) => b.score - a.score).slice(0, 3)`. -/
def runBotTop3 (scored : List ScoredStock) : List ScoredStock :=
  (sortByScoreDesc scored).take 3

/-- The underlying outcome of the outbound Discord message post: either
the transport fails (no response at all) or a response with some status
code is delivered.  `axios.post` is called without a `validateStatus`
option, so axios's default applies: the promise fulfils only for a
delivered status in 200–299 and rejects otherwise — a delivered non-2xx
response surfaces to the caller as a rejection, exactly like a transport
failure. -/
inductive HttpOutcome where
  | transportFailure : HttpOutcome
  | delivered : ℕ → HttpOutcome
deriving DecidableEq

/-- Observable behaviour of one `notifyDiscord` call: whether the outbound
call was attempted, whether a warning was logged, and whether an exception
propagated to the caller. -/
structure NotifyResult where
  attempted : Bool
  warned : Bool
  threw : Bool
deriving DecidableEq

/-- `notifyDiscord` (`notifyDiscord.ts` lines 13–52): empty input returns
early with a warning and no outbound call.  Otherwise the `axios.post`
promise fulfils only for a delivered 2xx status (axios's default
`validateStatus`), and then the `status !== 200 && status !== 201` check
logs a warning and the function returns normally; on any rejection — a
transport failure or a delivered non-2xx response — the `catch` logs the
error and rethrows it to the caller. -/
def notifyDiscord (outcome : HttpOutcome) (topStocks : List ScoredStock) : NotifyResult :=
  if topStocks.isEmpty then
    { attempted := false, warned := true, threw := false }
  else
    match outcome with
    | HttpOutcome.transportFailure =>
      { attempted := true, warned := false, threw := true }
    | HttpOutcome.delivered status =>
      if 200 ≤ status ∧ status < 300 then
        { attempted := true, warned := !(status == 200) && !(status == 201), threw := false }
      else
        { attempted := true, warned := false, threw := true }

/-- A whitespace character as matched by the regex class `\s`: the ECMA
WhiteSpace and LineTerminator sets (tab, line feed, vertical tab, form
feed, carriage return, space, no-break space, Ogham space mark, the
U+2000 to U+200A range, line separator, paragraph separator, narrow
no-break space, medium mathematical space, ideographic space, BOM). -/
def jsWsChar (c : Char) : Bool :=
  c == ' ' || c == '\t' || c == '\n' || c == '\r' || c == '\x0b' || c == '\x0c' ||
    c == '\xa0' || c == '\u1680' ||
    (decide (0x2000 ≤ c.toNat) && decide (c.toNat ≤ 0x200a)) ||
    c == '\u2028' || c == '\u2029' || c == '\u202f' || c == '\u205f' ||
    c == '\u3000' || c == '\ufeff'

/-- Drop leading regex whitespace. -/
def skipWsL (cs : List Char) : List Char :=
  cs.dropWhile jsWsChar

/-- A whitespace character of the JSON grammar, as skipped by
`JSON.parse`: exactly space, tab, line feed and carriage return. -/
def jsonWsChar (c : Char) : Bool :=
  c == ' ' || c == '\t' || c == '\n' || c == '\r'

/-- Drop leading JSON whitespace. -/
def skipJsonWs (cs : List Char) : List Char :=
  cs.dropWhile jsonWsChar

/-- Trailing part of the array regex: a closing brace, then greedy
whitespace, then a closing bracket.  Returns the consumed characters when
the input starts with that pattern. -/
def tryCloseBrace : List Char → Option (List Char)
  | '\x7d' :: rest =>
    match skipWsL rest with
    | ']' :: _ => some ('\x7d' :: (rest.takeWhile jsWsChar ++ [']']))
    | _ => none
  | _ => none

/-- The lazy middle of the array regex: consume as few characters as
possible (any character, including newlines) until the close pattern
matches; return the consumed middle together with the close. -/
def lazyCloseScan : List Char → Option (List Char)
  | [] => none
  | c :: rest =>
    match tryCloseBrace (c :: rest) with
    | some close => some close
    | none => (lazyCloseScan rest).map fun t => c :: t

/-- Attempt the whole array regex anchored at the head of the input: an
opening bracket, greedy whitespace, an opening brace, the lazy middle, then
the close.  Returns the full matched substring. -/
def matchArrayAt : List Char → Option (List Char)
  | '[' :: rest =>
    match skipWsL rest with
    | '\x7b' :: r3 =>
      (lazyCloseScan r3).map fun t => '[' :: (rest.takeWhile jsWsChar ++ '\x7b' :: t)
    | _ => none
  | _ => none

/-- Leftmost-match search: try the anchored pattern at every position, in
order, as `String.prototype.match` with a non-global regex does. -/
def findJsonArrayFrom : List Char → Option (List Char)
  | [] => none
  | c :: rest =>
    match matchArrayAt (c :: rest) with
    | some m => some m
    | none => findJsonArrayFrom rest

/-- `content.match(jsonArrayRegex)` in `scoreAndExplain` (`aiScoring.ts`
line 64): the first substring consisting of a bracket, optional whitespace,
an opening brace, a shortest run of arbitrary characters, a closing brace,
optional whitespace and a closing bracket; `none` when no such substring
exists. -/
def findJsonArrayMatch (s : String) : Option String :=
  (findJsonArrayFrom s.data).map List.asString

/-- A parsed JSON value (the result of `JSON.parse`). -/
inductive JsValue where
  | null : JsValue
  | bool : Bool → JsValue
  | num : ℚ → JsValue
  | str : String → JsValue
  | arr : List JsValue → JsValue
  | obj : List (String × JsValue) → JsValue

/-- Hexadecimal digit value, for `\u` escapes. -/
def hexVal (c : Char) : Option ℕ :=
  if c.isDigit then some (c.toNat - 48)
  else if 'a' ≤ c && c ≤ 'f' then some (c.toNat - 87)
  else if 'A' ≤ c && c ≤ 'F' then some (c.toNat - 55)
  else none

/-- Body of a JSON string after the opening quote: returns the decoded
characters and the remainder after the closing quote.  Escapes follow the
JSON grammar; unescaped control characters are a syntax error. -/
def parseStringBody : List Char → Option (List Char × List Char)
  | [] => none
  | '"' :: rest => some ([], rest)
  | '\\' :: '"' :: rest => (parseStringBody rest).map fun p => ('"' :: p.1, p.2)
  | '\\' :: '\\' :: rest => (parseStringBody rest).map fun p => ('\\' :: p.1, p.2)
  | '\\' :: '/' :: rest => (parseStringBody rest).map fun p => ('/' :: p.1, p.2)
  | '\\' :: 'b' :: rest => (parseStringBody rest).map fun p => ('\x08' :: p.1, p.2)
  | '\\' :: 'f' :: rest => (parseStringBody rest).map fun p => ('\x0c' :: p.1, p.2)
  | '\\' :: 'n' :: rest => (parseStringBody rest).map fun p => ('\n' :: p.1, p.2)
  | '\\' :: 'r' :: rest => (parseStringBody rest).map fun p => ('\x0d' :: p.1, p.2)
  | '\\' :: 't' :: rest => (parseStringBody rest).map fun p => ('\t' :: p.1, p.2)
  | '\\' :: 'u' :: a :: b :: c :: d :: rest =>
    match hexVal a, hexVal b, hexVal c, hexVal d with
    | some ha, some hb, some hc, some hd =>
      (parseStringBody rest).map fun p =>
        (Char.ofNat (((ha * 16 + hb) * 16 + hc) * 16 + hd) :: p.1, p.2)
    | _, _, _, _ => none
  | '\\' :: _ => none
  | ch :: rest =>
    if ch.toNat < 32 then none
    else (parseStringBody rest).map fun p => (ch :: p.1, p.2)

/-- Decimal digits to a natural number. -/
def digitsToNat (ds : List Char) : ℕ :=
  ds.foldl (fun acc c => acc * 10 + (c.toNat - 48)) 0

/-- The rational value of a JSON number literal: sign, integer part,
fraction digits, decimal exponent. -/
def mkJsonNum (neg : Bool) (ip : ℕ) (fds : List Char) (ex : ℤ) : ℚ :=
  let mantissa : ℤ := ((ip * 10 ^ fds.length + digitsToNat fds : ℕ) : ℤ)
  let m : ℤ := if neg then -mantissa else mantissa
  let e : ℤ := ex - fds.length
  if e = 0 then (m : ℚ)
  else if 0 ≤ e then ((m * 10 ^ e.toNat : ℤ) : ℚ)
  else (m : ℚ) / (10 : ℚ) ^ (-e).toNat

/-- A JSON number literal at the head of the input:
`-? (0 | [1-9][0-9]*) (. [0-9]+)? ([eE] [+-]? [0-9]+)?`. -/
def parseNumberL (cs : List Char) : Option (ℚ × List Char) :=
  let signSplit : Bool × List Char :=
    match cs with
    | '-' :: r => (true, r)
    | _ => (false, cs)
  let neg := signSplit.1
  let cs1 := signSplit.2
  let ids := cs1.takeWhile Char.isDigit
  let r1 := cs1.dropWhile Char.isDigit
  if ids.isEmpty then none
  else if 1 < ids.length && ids.headD 'x' == '0' then none
  else
    let ip := digitsToNat ids
    let fracSplit : Option (List Char × List Char) :=
      match r1 with
      | '.' :: r2 =>
        let fds := r2.takeWhile Char.isDigit
        if fds.isEmpty then none else some (fds, r2.dropWhile Char.isDigit)
      | _ => some ([], r1)
    match fracSplit with
    | none => none
    | some (fds, r3) =>
      match r3 with
      | 'e' :: r4 =>
        (parseExpTail r4).map fun p => (mkJsonNum neg ip fds p.1, p.2)
      | 'E' :: r4 =>
        (parseExpTail r4).map fun p => (mkJsonNum neg ip fds p.1, p.2)
      | _ => some (mkJsonNum neg ip fds 0, r3)
where
  /-- Exponent after `e`/`E`: optional sign then digits. -/
  parseExpTail (cs : List Char) : Option (ℤ × List Char) :=
    let signSplit : Bool × List Char :=
      match cs with
      | '-' :: r => (true, r)
      | '+' :: r => (false, r)
      | _ => (false, cs)
    let eds := signSplit.2.takeWhile Char.isDigit
    if eds.isEmpty then none
    else
      let n : ℤ := (digitsToNat eds : ℤ)
      some (if signSplit.1 then -n else n, signSplit.2.dropWhile Char.isDigit)

/-- Parser mode: a single value, the items of an array after its opening
bracket (non-empty case), or the members of an object after its opening
brace (non-empty case). -/
inductive PKind where
  | value : PKind
  | arrRest : PKind
  | objRest : PKind

/-- Parser result, per mode. -/
inductive PRes where
  | val : JsValue → PRes
  | vals : List JsValue → PRes
  | members : List (String × JsValue) → PRes

/-- Fuel-indexed recursive-descent JSON parser over the grammar of
`JSON.parse`.  The fuel only bounds the recursion depth of the simultaneous
value/array-items/object-members descent; every recursive call strictly
consumes input, so any fuel of at least twice the input length is enough. -/
def parseCore : ℕ → PKind → List Char → Option (PRes × List Char)
  | 0, _, _ => none
  | fuel + 1, PKind.value, cs =>
    match skipJsonWs cs with
    | [] => none
    | 'n' :: 'u' :: 'l' :: 'l' :: r => some (PRes.val JsValue.null, r)
    | 't' :: 'r' :: 'u' :: 'e' :: r => some (PRes.val (JsValue.bool true), r)
    | 'f' :: 'a' :: 'l' :: 's' :: 'e' :: r => some (PRes.val (JsValue.bool false), r)
    | '"' :: r =>
      (parseStringBody r).map fun p => (PRes.val (JsValue.str p.1.asString), p.2)
    | '[' :: r =>
      (match skipJsonWs r with
       | ']' :: r2 => some (PRes.val (JsValue.arr []), r2)
       | _ =>
         match parseCore fuel PKind.arrRest r with
         | some (PRes.vals vs, r2) => some (PRes.val (JsValue.arr vs), r2)
         | _ => none)
    | '\x7b' :: r =>
      (match skipJsonWs r with
       | '\x7d' :: r2 => some (PRes.val (JsValue.obj []), r2)
       | _ =>
         match parseCore fuel PKind.objRest r with
         | some (PRes.members ms, r2) => some (PRes.val (JsValue.obj ms), r2)
         | _ => none)
    | c :: r =>
      if c == '-' || c.isDigit then
        (parseNumberL (c :: r)).map fun p => (PRes.val (JsValue.num p.1), p.2)
      else none
  | fuel + 1, PKind.arrRest, cs =>
    match parseCore fuel PKind.value cs with
    | some (PRes.val v, r) =>
      (match skipJsonWs r with
       | ',' :: r2 =>
         (match parseCore fuel PKind.arrRest r2 with
          | some (PRes.vals vs, r3) => some (PRes.vals (v :: vs), r3)
          | _ => none)
       | ']' :: r2 => some (PRes.vals [v], r2)
       | _ => none)
    | _ => none
  | fuel + 1, PKind.objRest, cs =>
    match skipJsonWs cs with
    | '"' :: r =>
      (match parseStringBody r with
       | some (key, r1) =>
         (match skipJsonWs r1 with
          | ':' :: r2 =>
            (match parseCore fuel PKind.value r2 with
             | some (PRes.val v, r3) =>
               (match skipJsonWs r3 with
                | ',' :: r4 =>
                  (match parseCore fuel PKind.objRest r4 with
                   | some (PRes.members ms, r5) =>
                     some (PRes.members ((key.asString, v) :: ms), r5)
                   | _ => none)
                | '\x7d' :: r4 => some (PRes.members [(key.asString, v)], r4)
                | _ => none)
             | _ => none)
          | _ => none)
       | none => none)
    | _ => none

/-- `JSON.parse` on a string: one value, then only trailing whitespace;
`none` models a thrown `SyntaxError`. -/
def jsonParse (s : String) : Option JsValue :=
  match parseCore (2 * s.length + 4) PKind.value s.data with
  | some (PRes.val v, rest) => if (skipJsonWs rest).isEmpty then some v else none
  | _ => none

/-- The three ways `scoreAndExplain` can throw after receiving the model
response (`aiScoring.ts` lines 58–77). -/
inductive ScoreError where
  | noContent : ScoreError
  | noJsonArray : ScoreError
  | invalidJson : ScoreError
deriving DecidableEq

/-- The response handling of `scoreAndExplain` (`aiScoring.ts` lines
58–77): throw when the message has no content; otherwise scan the content
for the first array-of-objects substring and throw when none exists; parse
the matched substring as JSON and throw when invalid; otherwise return the
parsed value — the cast to `ScoredStock[]` is unchecked, so the raw parsed
value is returned as-is. -/
def scoreAndExplainParse (content : Option String) : Except ScoreError JsValue :=
  match content with
  | none => Except.error ScoreError.noContent
  | some c =>
    match findJsonArrayMatch c with
    | none => Except.error ScoreError.noJsonArray
    | some m =>
      match jsonParse m with
      | none => Except.error ScoreError.invalidJson
      | some v => Except.ok v

/-- Is the value a JSON number? -/
def isNumV : JsValue → Bool
  | JsValue.num _ => true
  | _ => false

/-- Is the value a JSON string? -/
def isStrV : JsValue → Bool
  | JsValue.str _ => true
  | _ => false

/-- Does an object member list carry key `k` with a value satisfying `p`? -/
def hasField (ms : List (String × JsValue)) (k : String) (p : JsValue → Bool) : Bool :=
  ms.any fun kv => kv.1 == k && p kv.2

/-- Whether a parsed element satisfies the `ScoredStock` interface shape: a
string `symbol`, a numeric `score` and a string `explanation`. -/
def scoredStockShaped : JsValue → Bool
  | JsValue.obj ms =>
    hasField ms "symbol" isStrV && hasField ms "score" isNumV &&
      hasField ms "explanation" isStrV
  | _ => false

/-- A model reply consisting of explanatory prose followed by a JSON array
and trailing prose, as in the specification's worked example. -/
def exampleContent : String :=
  "Sure! Based on the metrics, here are my top picks:\n\n[\x7b\"symbol\":\"ABC\",\"score\":9,\"explanation\":\"Strong upside.\"\x7d]\n\nHope this helps."

/-- The JSON array embedded in `exampleContent`. -/
def exampleParsed : JsValue :=
  JsValue.arr [JsValue.obj
    [("symbol", JsValue.str "ABC"), ("score", JsValue.num 9),
      ("explanation", JsValue.str "Strong upside.")]]

/-- A model reply whose first array-of-objects substring is valid JSON but
whose lone element has none of the `ScoredStock` fields. -/
def malformedContent : String :=
  "Here you go: [\x7b\"foo\":1\x7d]"

/-- The lone element of the array parsed out of `malformedContent`. -/
def malformedElement : JsValue :=
  JsValue.obj [("foo", JsValue.num 1)]

/-- The binary64 value denoted by the literal `2.005`: in `[2, 4)` doubles
are the integer multiples of `2⁻⁵¹`, and `4514858626438922 / 2⁵¹` is the
multiple nearest `2.005` (strictly within half a spacing, as proved in the
C8 theorems), so IEEE-754 round-to-nearest parses `2.005` to exactly this
rational, which is slightly less than `2.005`. -/
def epsAvgOfLiteral2005 : ℚ :=
  4514858626438922 / 2 ^ 51

/-- A raw analyst-estimate row whose `epsAvg` field holds what the JSON
literal `2.005` denotes at runtime. -/
def c8Row : RawStockData :=
  { symbol := "XYZ", date := "2025-12-31", revenueAvg := 1000, ebitdaAvg := 250,
    netIncomeAvg := 100, sgaExpenseAvg := 150, epsAvg := epsAvgOfLiteral2005,
    numAnalystsRevenue := 5, numAnalystsEps := 7 }

/-- Witness insights record for the pipeline theorems. -/
def insightsW : StockInsights :=
  { period := "2025-12-31", eps := 2, ebitdaMargin := 1 / 4, netMargin := 1 / 10,
    sgaOverRevenue := 3 / 20, analystCount := 7, summary := "ok" }

/-- Witness fetch environment: every symbol resolves with target 160,
insights `insightsW`, and fully numeric metrics. -/
def envW : Env :=
  { targetPriceOf := fun _ => some 160
    sentimentOf := fun _ => some insightsW
    metricsOf := fun _ => { pe := some 10, pb := some 1, debtToEquity := some (1 / 2) } }

/-- Witness screener candidate: a non-ETF, non-fund stock at price 100. -/
def candW : RawCandidate :=
  { symbol := "ABC", companyName := "ABC Corp", price := 100,
    isEtf := false, isFund := false }

instance : IsTotal ScoredStock fun a b => b.score ≤ a.score :=
  ⟨fun a b => le_total b.score a.score⟩

instance : IsTrans ScoredStock fun a b => b.score ≤ a.score :=
  ⟨fun _ _ _ h1 h2 => le_trans h2 h1⟩

theorem overrideWith_none_left (c : Option α) : overrideWith none c = c := by
  cases c <;> rfl

theorem overrideWith_some_left (d : α) (c : Option α) :
    overrideWith (some d) c = some (c.getD d) := by
  cases c <;> rfl

/-- The enrichment part of `specIncluded`, once the ETF/fund filter has
been applied. -/
def specEnrichOk (env : Env) (c : RawCandidate) : Bool :=
  (match env.targetPriceOf c.symbol with
   | none => false
   | some t => decide (3 / 2 < t / c.price)) &&
    (env.sentimentOf c.symbol).isSome &&
    (env.metricsOf c.symbol).pe.isSome &&
    (env.metricsOf c.symbol).pb.isSome &&
    (env.metricsOf c.symbol).debtToEquity.isSome

theorem specIncluded_split (env : Env) (c : RawCandidate) :
    specIncluded env c = ((!c.isEtf && !c.isFund) && specEnrichOk env c) := by
  unfold specIncluded specEnrichOk
  cases !c.isEtf && !c.isFund <;> simp

/-- The loop body succeeds exactly on candidates passing the enrichment
condition, in which case it yields the composed record. -/
theorem enrichCandidate_eq (env : Env) (c : RawCandidate) :
    enrichCandidate env c =
      if specEnrichOk env c then some (buildStock env c) else none := by
  unfold enrichCandidate specEnrichOk
  cases htp : env.targetPriceOf c.symbol with
  | none => simp
  | some t =>
    have hiff : 3 / 2 < t / c.price ↔ ¬(t = 0 ∨ t / c.price ≤ 3 / 2) := by
      constructor
      · intro h
        push_neg
        refine ⟨fun h0 => ?_, h⟩
        rw [h0, zero_div] at h
        norm_num at h
      · intro h
        push_neg at h
        exact h.2
    by_cases hcond : t = 0 ∨ t / c.price ≤ 3 / 2
    · have hlt : ¬3 / 2 < t / c.price := fun hh => hiff.mp hh hcond
      simp [hcond, hlt]
    · have hlt : 3 / 2 < t / c.price := hiff.mpr hcond
      cases hs : env.sentimentOf c.symbol with
      | none => simp [hcond, hs]
      | some ins =>
        cases hpe : (env.metricsOf c.symbol).pe with
        | none => simp [hcond, hs, hpe, hlt]
        | some pe =>
          cases hpb : (env.metricsOf c.symbol).pb with
          | none => simp [hcond, hs, hpe, hpb, hlt]
          | some pb =>
            cases hde : (env.metricsOf c.symbol).debtToEquity with
            | none => simp [hcond, hs, hpe, hpb, hde, hlt]
            | some de => simp [hcond, hs, hpe, hpb, hde, hlt]

theorem filterMap_as_filter_map (f : α → Option β) (p : α → Bool) (g : α → β)
    (h : ∀ a, f a = if p a then some (g a) else none) (l : List α) :
    l.filterMap f = (l.filter p).map g := by
  induction l with
  | nil => rfl
  | cons a t ih =>
    rw [List.filterMap_cons, List.filter_cons, h a]
    by_cases hp : p a
    · simp [hp, ih]
    · simp [hp, ih]

/-- The pipeline output is the order-preserving image of the candidates
passing the specification's inclusion condition. -/
theorem fetchUndervaluedStocks_eq (env : Env) (data : List RawCandidate) :
    fetchUndervaluedStocks env data =
      (data.filter (specIncluded env)).map (buildStock env) := by
  unfold fetchUndervaluedStocks
  rw [filterMap_as_filter_map (enrichCandidate env) (specEnrichOk env) (buildStock env)
    (enrichCandidate_eq env)]
  congr 1
  rw [List.filter_filter]
  exact List.filter_congr fun c _ => by rw [specIncluded_split env c, Bool.and_comm]

/-- C1: for every screener response, a candidate appears in the output of
`fetchUndervaluedStocks` iff it is not flagged as ETF or fund, its fetched
target price exists, the target-to-price ratio exceeds 1.5, the analyst
sentiment fetch succeeds, and the fetched P/E, P/B and debt-to-equity are
all numeric; the output is the screener-order image of exactly the passing
candidates. -/
theorem c1_enrichment_inclusion_and_order (env : Env) (data : List RawCandidate) :
    fetchUndervaluedStocks env data =
      (data.filter (specIncluded env)).map (buildStock env) :=
  fetchUndervaluedStocks_eq env data

/-- C2: the `/run` handler materialises every screener key even for absent
query parameters — absent numeric parameters become `NaN`, an absent
exchange becomes the string `"undefined"`, absent boolean flags become
`false`, only `limit` falls back to 400 — and in the subsequent merge these
materialised values shadow every default, so omitting `exchange` does not
query `exchange=NASDAQ` and omitting `isActivelyTrading` queries
`isActivelyTrading=false`. -/
theorem c2_run_handler_overrides_defaults (parse : String → JSNum) (q : HandlerQuery) :
    ((runHandlerParams parse q).marketCapLowerThan.isSome ∧
      (runHandlerParams parse q).priceLowerThan.isSome ∧
      (runHandlerParams parse q).averageVolumeMoreThan.isSome ∧
      (runHandlerParams parse q).exchange.isSome ∧
      (runHandlerParams parse q).isActivelyTrading.isSome ∧
      (runHandlerParams parse q).isEtf.isSome ∧
      (runHandlerParams parse q).isFund.isSome ∧
      (runHandlerParams parse q).limit.isSome) ∧
    (q.marketCapLowerThan = none →
      (runHandlerParams parse q).marketCapLowerThan = some JSNum.nan) ∧
    (q.priceLowerThan = none →
      (runHandlerParams parse q).priceLowerThan = some JSNum.nan) ∧
    (q.averageVolumeMoreThan = none →
      (runHandlerParams parse q).averageVolumeMoreThan = some JSNum.nan) ∧
    (q.exchange = none →
      (finalParams (runHandlerParams parse q)).exchange = some "undefined" ∧
        (finalParams (runHandlerParams parse q)).exchange ≠ some "NASDAQ") ∧
    (q.isActivelyTrading = none →
      (finalParams (runHandlerParams parse q)).isActivelyTrading = some false) ∧
    (q.isEtf = none → (runHandlerParams parse q).isEtf = some false) ∧
    (q.isFund = none → (runHandlerParams parse q).isFund = some false) ∧
    (q.limit = none →
      (finalParams (runHandlerParams parse q)).limit = some (JSNum.num 400)) ∧
    finalParams (runHandlerParams parse q) = runHandlerParams parse q := by
  refine ⟨⟨rfl, rfl, rfl, rfl, rfl, rfl, rfl, rfl⟩, ?_, ?_, ?_, ?_, ?_, ?_, ?_, ?_, rfl⟩
  all_goals intro h
  · simp [runHandlerParams, jsNumber, h]
  · simp [runHandlerParams, jsNumber, h]
  · simp [runHandlerParams, jsNumber, h]
  · refine ⟨?_, ?_⟩ <;> simp [finalParams, overrideWith, runHandlerParams, jsString, h]
  · simp [finalParams, overrideWith, runHandlerParams, jsIsTrueLiteral, h]
  · simp [runHandlerParams, jsIsTrueLiteral, h]
  · simp [runHandlerParams, jsIsTrueLiteral, h]
  · simp [finalParams, overrideWith, runHandlerParams, jsNumber, jsOrNum, h]

/-- C2 witness: a request with every screener query parameter absent. -/
theorem c2_witness :
    (runHandlerParams (fun _ => JSNum.nan)
        { marketCapLowerThan := none }).marketCapLowerThan = some JSNum.nan ∧
    (finalParams (runHandlerParams (fun _ => JSNum.nan)
        { marketCapLowerThan := none })).exchange = some "undefined" ∧
    (finalParams (runHandlerParams (fun _ => JSNum.nan)
        { marketCapLowerThan := none })).isActivelyTrading = some false ∧
    (finalParams (runHandlerParams (fun _ => JSNum.nan)
        { marketCapLowerThan := none })).limit = some (JSNum.num 400) :=
  ⟨(c2_run_handler_overrides_defaults (fun _ => JSNum.nan) { marketCapLowerThan := none }).2.1 rfl,
    ((c2_run_handler_overrides_defaults (fun _ => JSNum.nan)
      { marketCapLowerThan := none }).2.2.2.2.1 rfl).1,
    (c2_run_handler_overrides_defaults (fun _ => JSNum.nan)
      { marketCapLowerThan := none }).2.2.2.2.2.1 rfl,
    (c2_run_handler_overrides_defaults (fun _ => JSNum.nan)
      { marketCapLowerThan := none }).2.2.2.2.2.2.2.2.1 rfl⟩

/-- C3: `buildQueryParams` merges caller options over the defaults with the
caller winning on key collision; keys the caller does not supply retain
`isActivelyTrading=true`, `limit=400`, `exchange="NASDAQ"`, and keys with
no default stay as the caller left them. -/
theorem c3_merge_caller_over_defaults (p : ScreenerOptions) :
    finalParams p =
      { marketCapLowerThan := p.marketCapLowerThan
        priceLowerThan := p.priceLowerThan
        averageVolumeMoreThan := p.averageVolumeMoreThan
        exchange := some (p.exchange.getD "NASDAQ")
        isActivelyTrading := some (p.isActivelyTrading.getD true)
        isEtf := p.isEtf
        isFund := p.isFund
        limit := some (p.limit.getD (JSNum.num 400)) } := by
  simp [finalParams, defaultParams, overrideWith_none_left, overrideWith_some_left]

/-- C4: `extractKeyInsights` derives each insight as the claim's formula:
margins and the SG&A ratio are the ratios of the raw averages rounded to 4
decimal places and the analyst count is the maximum of the two coverage
counts. -/
theorem c4_extractKeyInsights_formulas (d : RawStockData) :
    (extractKeyInsights d).ebitdaMargin = toFixedRound 4 (d.ebitdaAvg / d.revenueAvg) ∧
    (extractKeyInsights d).netMargin = toFixedRound 4 (d.netIncomeAvg / d.revenueAvg) ∧
    (extractKeyInsights d).sgaOverRevenue = toFixedRound 4 (d.sgaExpenseAvg / d.revenueAvg) ∧
    (extractKeyInsights d).analystCount = max d.numAnalystsRevenue d.numAnalystsEps :=
  ⟨rfl, rfl, rfl, rfl⟩

/-- C5: whatever list the scoring service returns, `runBot`'s own
sort-and-truncate leaves at most three records, sorted by descending
score. -/
theorem c5_runBot_top3_length_sorted (scored : List ScoredStock) :
    (runBotTop3 scored).length ≤ 3 ∧
      (runBotTop3 scored).Sorted fun a b => b.score ≤ a.score := by
  constructor
  · simp [runBotTop3, List.length_take]
  · exact (List.sorted_insertionSort _ scored).sublist (List.take_sublist _ _)

theorem except_error_isOk (e : ε) : (Except.error e : Except ε α).isOk = false := rfl

theorem except_ok_isOk (a : α) : (Except.ok a : Except ε α).isOk = true := rfl

/-- C6: `scoreAndExplain` throws exactly when the model response has no
content, or the regex scan finds no array-of-objects substring in the
content, or the found substring is not valid JSON; otherwise it returns the
parsed array — and on prose wrapped around a JSON array it extracts and
parses exactly that array. -/
theorem c6_scoreAndExplain_error_cases :
    (∀ content : Option String,
      (scoreAndExplainParse content).isOk = false ↔
        content = none ∨
          ∃ s, content = some s ∧
            (findJsonArrayMatch s = none ∨
              ∃ m, findJsonArrayMatch s = some m ∧ jsonParse m = none)) ∧
    scoreAndExplainParse (some exampleContent) = Except.ok exampleParsed := by
  constructor
  · intro content
    cases content with
    | none => simp [scoreAndExplainParse, except_error_isOk]
    | some s =>
      cases hm : findJsonArrayMatch s with
      | none => simp [scoreAndExplainParse, hm, except_error_isOk]
      | some m =>
        cases hp : jsonParse m with
        | none => simp [scoreAndExplainParse, hm, hp, except_error_isOk]
        | some v => simp [scoreAndExplainParse, hm, hp, except_ok_isOk]
  · rfl

/-- C7: the claim fails on the code.  `axios.post` in `notifyDiscord` uses
axios's default `validateStatus`, so a delivered non-2xx response (for a
non-empty scored list, e.g. a 404) rejects the promise, lands in the
`catch` and is rethrown — fatal, not a logged warning; the
`status !== 200 && status !== 201` warning branch is reachable only for
2xx statuses other than 200 and 201, such as 204.  A transport failure is
likewise rethrown. -/
theorem c7_delivered_non2xx_is_fatal :
    notifyDiscord (HttpOutcome.delivered 404) [⟨"ABC", 9, "good"⟩] =
      { attempted := true, warned := false, threw := true } ∧
    notifyDiscord HttpOutcome.transportFailure [⟨"ABC", 9, "good"⟩] =
      { attempted := true, warned := false, threw := true } ∧
    notifyDiscord (HttpOutcome.delivered 204) [⟨"ABC", 9, "good"⟩] =
      { attempted := true, warned := true, threw := false } ∧
    notifyDiscord (HttpOutcome.delivered 200) [⟨"ABC", 9, "good"⟩] =
      { attempted := true, warned := false, threw := false } :=
  ⟨rfl, rfl, rfl, rfl⟩

/-- C8 counterexample: the JSON literal `2.005` denotes the binary64 value
`4514858626438922 / 2⁵¹` (the multiple of `2⁻⁵¹` within half a spacing of
`2.005`), and on that value `extractKeyInsights` yields `eps = 2.00`, not
`2.01`, refuting the claimed example. -/
theorem c8_eps_2005_rounds_down :
    |(401 : ℚ) / 200 - epsAvgOfLiteral2005| < 1 / 2 ^ 52 ∧
      epsAvgOfLiteral2005 < 401 / 200 ∧
      (extractKeyInsights c8Row).eps = 2 ∧
      (extractKeyInsights c8Row).eps ≠ 201 / 100 := by
  have heps : (extractKeyInsights c8Row).eps = 2 := by
    show toFixedRound 2 c8Row.epsAvg = 2
    have hnn : ¬c8Row.epsAvg < 0 := by
      norm_num [c8Row, epsAvgOfLiteral2005]
    rw [toFixedRound, if_neg hnn]
    have hfl : ⌊c8Row.epsAvg * 10 ^ 2 + 1 / 2⌋ = (200 : ℤ) := by
      rw [Int.floor_eq_iff]
      constructor
      · norm_num [c8Row, epsAvgOfLiteral2005]
      · norm_num [c8Row, epsAvgOfLiteral2005]
    rw [hfl]
    norm_num
  refine ⟨by norm_num [abs_lt, epsAvgOfLiteral2005],
    by norm_num [epsAvgOfLiteral2005], heps, ?_⟩
  rw [heps]
  norm_num

/-- C8 amended: for a raw analyst estimate whose `epsAvg` is what the JSON
literal `2.005` denotes at runtime (the binary64 value nearest `2.005`,
which lies strictly below it), the derived insights have `eps = 2.00`:
`toFixed(2)` rounds the stored value down, so the derived EPS is `2.00`
rather than `2.01`. -/
theorem c8_amended_eps_is_2_00 :
    |(401 : ℚ) / 200 - c8Row.epsAvg| < 1 / 2 ^ 52 ∧
      (extractKeyInsights c8Row).eps = 2 := by
  have heps : (extractKeyInsights c8Row).eps = 2 := by
    show toFixedRound 2 c8Row.epsAvg = 2
    have hnn : ¬c8Row.epsAvg < 0 := by
      norm_num [c8Row, epsAvgOfLiteral2005]
    rw [toFixedRound, if_neg hnn]
    have hfl : ⌊c8Row.epsAvg * 10 ^ 2 + 1 / 2⌋ = (200 : ℤ) := by
      rw [Int.floor_eq_iff]
      constructor
      · norm_num [c8Row, epsAvgOfLiteral2005]
      · norm_num [c8Row, epsAvgOfLiteral2005]
    rw [hfl]
    norm_num
  exact ⟨by norm_num [abs_lt, c8Row, epsAvgOfLiteral2005], heps⟩

/-- C9: in this version every enriched record has `rsi` exactly 50: the RSI
fetcher always returns null and the pipeline substitutes 50 for a null
RSI. -/
theorem c9_rsi_defaults_to_50 :
    (∀ s : String, getRsi s = none) ∧
      ∀ (env : Env) (data : List RawCandidate) (st : Stock),
        st ∈ fetchUndervaluedStocks env data → st.rsi = 50 := by
  refine ⟨fun _ => rfl, ?_⟩
  intro env data st hmem
  rw [fetchUndervaluedStocks_eq] at hmem
  obtain ⟨c, -, rfl⟩ := List.mem_map.mp hmem
  rfl

/-- C9 witness: a concrete passing candidate whose enriched record carries
`rsi = 50`. -/
theorem c9_witness :
    getRsi "ABC" = none ∧ (buildStock envW candW).rsi = 50 :=
  ⟨c9_rsi_defaults_to_50.1 "ABC",
    c9_rsi_defaults_to_50.2 envW [candW] (buildStock envW candW) (by
      rw [fetchUndervaluedStocks_eq]
      have hinc : specIncluded envW candW = true := by
        simp only [specIncluded, envW, candW]
        norm_num
      simp [hinc])⟩

/-- C10: `scoreAndExplain` performs no schema validation: content whose
first array-of-objects substring is valid JSON is returned as parsed even
when its elements carry none of the `ScoredStock` fields. -/
theorem c10_no_schema_validation :
    scoreAndExplainParse (some malformedContent) =
        Except.ok (JsValue.arr [malformedElement]) ∧
      scoredStockShaped malformedElement = false :=
  ⟨rfl, rfl⟩
